import Mathlib

/-!
Verification of the session/chat-state core of `wm.py`, the Orion
wealth-management chat front-end.

Modelling conventions:
* Python strings are lists of characters (`Str`), so slicing, length and
  truncation are positional, as in the source.
* The insertion-ordered `st.session_state.chats` dict is an association list
  `List (ChatId × Chat)`; the fresh UUIDs handed out by `uuid4()` are modelled
  by a monotone counter `nextId` carried in the state, which keeps them unique.
* Each Streamlit handler (button callbacks, the upload loop, the chat-input
  block, the auto-run block) is a pure state-transition function.
* The external completion gateway and the PDF text extractor appear as
  explicit `Except` arguments, mirroring the `try/except` structure of the
  source; `.error` stands for the exception the `except` clause catches.
-/

namespace WM

/-- Python strings, modelled positionally as lists of characters. -/
abbrev Str := List Char

/-- Raw uploaded file contents (`f.read()`), modelled as a list of byte
values. -/
abbrev Bytes := List Nat

/-- Chat identifiers: stand-ins for the `uuid4()` strings.  Freshness is
provided by the `nextId` counter in `ChatState`. -/
abbrev ChatId := Nat

/-- A chat message as stored in `chat["messages"]`: role, content, and the
optional UI-only `meta.hidden` flag (absent is modelled as `false`). -/
structure Message where
  role : Str
  content : Str
  hidden : Bool
  deriving DecidableEq

/-- A message as sent to the completion API by `_build_messages`: UI-only
metadata is stripped, only role and content remain. -/
structure OutMessage where
  role : Str
  content : Str
  deriving DecidableEq

/-- One value of the `st.session_state.chats` dict: display name, message
log, and the `meta.pinned` marker carried by the Recommendations chat. -/
structure Chat where
  name : Str
  messages : List Message
  pinned : Bool
  deriving DecidableEq

/-- Constant `MAX_REPLY_CHARS` from the configuration block of `wm.py`. -/
def MAX_REPLY_CHARS : Nat := 4000

/-- The effective `MAX_PROFILE_CHARS` used by `_build_system_prompt`
(the module-level binding that the final `system_prompt` assignment uses). -/
def MAX_PROFILE_CHARS : Nat := 12000

/-- Helper `_truncate`: hard character cutoff applied to assistant replies. -/
def _truncate (text : Str) (maxChars : Nat) : Str :=
  if text.length ≤ maxChars then text else text.take maxChars

/-- The per-message loop of `_build_messages`: read role and content with
their dict defaults, drop messages whose content is falsy (empty), keep the
rest in order.  The `meta`/`hidden` key is never consulted. -/
def buildHistory : List Message → List OutMessage
  | [] => []
  | m :: rest =>
    if m.content = [] then buildHistory rest
    else { role := m.role, content := m.content } :: buildHistory rest

/-- Helper `_build_messages`: one system message built from the composed system
prompt, followed by the filtered history. -/
def _build_messages (systemPrompt : Str) (history : List Message) : List OutMessage :=
  { role := "system".toList, content := systemPrompt } :: buildHistory history

/-- Constant `BASE_SYSTEM_PROMPT` from `wm.py` (Python adjacent string literals are
concatenated). -/
def BASE_SYSTEM_PROMPT : Str :=
  ("You are an AI Wealth Manager Assistant called Orion. You assist a dedicated Wealth Manager Executive "
    ++ "in ensuring clients under their portfolio are well taken care of with ample details. "
    ++ "You (1) proactively recommend exclusive investment or lifestyle opportunities triggered by significant life milestones—"
    ++ "such as tailored education planning for children entering elite institutions or orchestrating bespoke celebratory events like milestone anniversaries—"
    ++ "with Relationship Managers (RMs) empowered to coordinate logistics upon client approval; and (2) deliver high-touch concierge recommendations for upcoming travel, "
    ++ "considering personal health requirements, family composition (e.g., infant care or elder support), and cultural preferences, "
    ++ "informed by RM-provided natural language input and the client’s comprehensive wealth and lifestyle profile. "
    ++ "Before proceeding, confirm who you will be assisting or offer to list the current portfolio. "
    ++ "Here is Alexandra Wu-Chan’s details: Alexandra Wu-Chan, age 38, is based in Hong Kong and has recently been appointed as CEO of her family’s multinational conglomerate—a major career milestone. "
    ++ "She is planning an opulent 40th birthday celebration in January 2026 at a château in the Loire Valley. "
    ++ "Her two children attend elite international schools, prompting opportunities for summer academic programmes at institutions such as Oxford and Cambridge. "
    ++ "She is a private wine collector and a lover of fine art photography. "
    ++ "Recommendations should include bespoke birthday experiences, private vineyard tastings, and early-access academic residencies, with full event coordination offered upon her approval. "
    ++ "Here is Luca Bianchi’s details: Luca Bianchi, age 52, is based in Milan, Italy and is preparing to celebrate his 25th wedding anniversary with a vow renewal in Santorini in April 2026—a significant milestone. "
    ++ "His wife favours Mediterranean décor and holistic spa retreats. "
    ++ "The couple follow a vegan lifestyle and prioritise sustainability. "
    ++ "Luca is also an avid collector of rare timepieces. "
    ++ "This occasion should trigger recommendations including luxury villa bookings, Grecian-style bespoke ceremony planning, and wellness-focused itineraries. "
    ++ "In addition, real-time alerts should surface for exclusive watch auctions during his May 2026 visit to Geneva. "
    ++ "Here is Charles Montgomery IV’s details: Charles Montgomery IV, age 60, is based in London and is entering retirement in early 2026—a key transition point. "
    ++ "He intends to establish a philanthropic foundation focused on climate resilience and education equity. "
    ++ "He frequently travels to Monaco and the Maldives and has a deep appreciation for classical music, antiques, and private yacht excursions. "
    ++ "High-touch suggestions should include tailored introductions to philanthropic consultants, curated donor forum invitations, and Mediterranean yacht cruises aligned with major cultural and auction events. "
    ++ "Special attention should be given to coordinating these opportunities with his post-retirement wellness plans. "
    ++ "Here is Noor Al-Fulan’s details: Noor Al-Fulan, age 29, is based in Dubai and recently got engaged—her wedding is planned for December 2025 at a private riad in Marrakesh. "
    ++ "Noor is a luxury influencer with over 2 million followers, and her interests include bespoke fashion, wellness retreats, and high jewellery. "
    ++ "She travels regularly to Paris, Los Angeles, and Tokyo for brand collaborations. "
    ++ "High-touch recommendations should focus on honeymoon destinations offering privacy and wellness (such as Bhutan or Bali), custom jewellery consultations, and exclusive access to Paris Fashion Week in October 2025. "
    ++ "All travel and event arrangements should prioritise discretion and VIP access. "
    ++ "Here is Kenji Tanaka’s details: Kenji Tanaka, age 44, is based in Tokyo and has recently exited his tech startup. "
    ++ "He is planning a family sabbatical across Europe in Summer 2026—a major lifestyle transition. "
    ++ "He is married with three children (ages 4 to 11), and values education, culinary experiences, and cultural immersion. "
    ++ "Recommendations should include multi-country luxury itineraries with interactive museum access, private cooking classes, and premium scenic rail journeys. "
    ++ "All bookings must be tailored for families with young children and provide Japanese-speaking guides. "
    ++ "Investment briefings and venture capital summit alerts may also be surfaced during his sabbatical period. "
    ++ "Lastly, when asked for recommendations, be direct and straightforward and give exact locations or services.").toList

/-- Constant `OPP_PROMPT`: the fixed opportunities-seeking prompt used by the auto-run
block. -/
def OPP_PROMPT : Str :=
  ("Identify and summarize recent exclusive opportunities that may be of strong interest to any clients in your portfolio, based on their profiles, life milestones, and stated interests."
    ++ "Use the following criteria:"
    ++ "• For each client, find 1–2 high-relevance opportunities that match their current context (e.g. major life events, lifestyle preferences, travel plans, or investment themes)."
    ++ "• Focus on ultra-high-net-worth-appropriate experiences, investments, or partnerships (e.g. private placements, art or watch auctions, bespoke retreats, cultural events, or philanthropic forums)."
    ++ "• Prioritize relevance and recency — reference opportunities or events within the past 3 months."
    ++ "• Be concrete: specify names of events, locations, institutions, or offerings, not generic suggestions."
    ++ "• Keep each recommendation under 3 sentences."
    ++ "You will consider all client profiles and curate a recommendation for each one"
    ++ "Output format:"
    ++ "Client Name — [Short title of opportunity]"
    ++ "[Concise 2–3 sentence description with timing, location, and why it fits their interests.]"
    ++ "Example:"
    ++ "Noor Al-Fulan — “Van Cleef & Arpels Haute Joaillerie Private Preview, Paris (Oct 2025)”"
    ++ "An invitation-only showing of Van Cleef’s newest bridal haute jewellery line, with VIP fittings arranged through Maison representatives. Perfectly aligned with Noor’s engagement and brand collaborations."
    ++ "If no relevant opportunities are found for a client, state no opportunities as of now.").toList

/-- Profile-related session state: `client_profiles` and
`client_profile_hashes` (the hash set is modelled as a list, only membership
matters). -/
structure ProfileState where
  client_profiles : List Str
  client_profile_hashes : List Bytes
  deriving DecidableEq

/-- The characters Python `str.strip()` removes. -/
def pyIsSpace (c : Char) : Bool :=
  c == ' ' || c == '\t' || c == '\n' || c == '\r' || c == '\x0b' || c == '\x0c'

/-- Python `str.strip()`: remove leading and trailing whitespace. -/
def pyStrip (t : Str) : Str :=
  ((t.dropWhile pyIsSpace).reverse.dropWhile pyIsSpace).reverse

/-- Sanitization step `text.replace("\x00", "")`: drop every null character. -/
def stripNulls (t : Str) : Str :=
  t.filter fun c => decide (c ≠ '\x00')

/-- The wrapper the source puts around each sanitized profile text before
storing it (an f-string with a fixed header, the sanitized text, and a
trailing newline). -/
def wrapFragment (sanitized : Str) : Str :=
  "# New Client Profile Added\n---\n".toList ++ sanitized ++ "\n".toList

/-- Outcome of one iteration of the upload-processing loop; one constructor
per exit path of the loop body. -/
inductive UploadStatus where
  | duplicate -- content hash already known: skipped before extraction
  | added -- fragment stored and hash recorded
  | emptyText -- extracted text empty after strip: skipped, nothing stored
  | failed -- extraction raised: caught and reported, nothing stored
  deriving DecidableEq

/-- One iteration of the `for f in uploaded_pdfs` loop.  `hash` stands for
`hashlib.md5(content).hexdigest()`, an arbitrary deterministic function of
the raw bytes; `ext` is the outcome of the `fitz` text extraction, `.error`
when the `try` block raises before any state change. -/
def processFile (hash : Bytes → Bytes) (s : ProfileState) (content : Bytes)
    (ext : Except Str Str) : UploadStatus × ProfileState :=
  let h := hash content
  if h ∈ s.client_profile_hashes then (.duplicate, s)
  else
    match ext with
    | .error _ => (.failed, s)
    | .ok raw =>
      let text := pyStrip raw
      if text = [] then (.emptyText, s)
      else
        (.added,
          { client_profiles := s.client_profiles ++ [wrapFragment (stripNulls text)],
            client_profile_hashes := s.client_profile_hashes ++ [h] })

/-- The whole upload loop over one batch of files (raw bytes paired with the
extraction outcome for those bytes). -/
def processFiles (hash : Bytes → Bytes) (s : ProfileState)
    (files : List (Bytes × Except Str Str)) : ProfileState :=
  files.foldl (fun st p => (processFile hash st p.1 p.2).2) s

/-- Python `"\n\n".join(profs)`. -/
def joinProfiles : List Str → Str
  | [] => []
  | [p] => p
  | p :: rest => p ++ "\n\n".toList ++ joinProfiles rest

/-- The profile block `_build_system_prompt` appends: the joined fragments
sliced to `MAX_PROFILE_CHARS` (`joined[:MAX_PROFILE_CHARS]`). -/
def renderProfileBlock (profs : List Str) : Str :=
  (joinProfiles profs).take MAX_PROFILE_CHARS

/-- Helper `_build_system_prompt`: the base prompt, plus a fixed section header and
the bounded profile block when any profiles are loaded. -/
def _build_system_prompt (profs : List Str) : Str :=
  if profs = [] then BASE_SYSTEM_PROMPT
  else
    BASE_SYSTEM_PROMPT ++ "\n\n# Additional Client Profiles (session)\n".toList
      ++ renderProfileBlock profs

/-- Chat-related session state, as initialised and mutated by the handlers:
the chats dict, the active and pinned chat ids, the `autorun` flag (absent is
modelled as `false`), and the id counter standing in for `uuid4()`. -/
structure ChatState where
  chats : List (ChatId × Chat)
  active_chat : ChatId
  opps_chat_id : ChatId
  autorun : Bool
  nextId : Nat
  deriving DecidableEq

/-- The keys of the chats dict, in insertion order. -/
def chatIds (s : ChatState) : List ChatId := s.chats.map Prod.fst

/-- Lookup `st.session_state.chats[id]`. -/
def findChat : List (ChatId × Chat) → ChatId → Option Chat
  | [], _ => none
  | p :: rest, id => if p.1 = id then some p.2 else findChat rest id

/-- Mutation `chats[id]["messages"].append(m)`: update the entry for `id` in place. -/
def appendToChat (chats : List (ChatId × Chat)) (id : ChatId) (m : Message) :
    List (ChatId × Chat) :=
  chats.map fun p =>
    if p.1 = id then (p.1, { p.2 with messages := p.2.messages ++ [m] }) else p

/-- The session-state initialisation block: one normal chat `"Chat #1"` made
active, then the pinned `"Recommendations"` opportunities chat. -/
def initState : ChatState :=
  { chats := [(0, { name := "Chat #1".toList, messages := [], pinned := false }),
              (1, { name := "Recommendations".toList, messages := [], pinned := true })],
    active_chat := 0,
    opps_chat_id := 1,
    autorun := false,
    nextId := 2 }

/-- The `New Chat` button handler: fresh id, name numbered from the current
dict size, inserted at the end and made active. -/
def createChat (s : ChatState) : ChatState :=
  let id := s.nextId
  { s with
    chats := s.chats
      ++ [(id, { name := "Chat #".toList ++ (Nat.repr (s.chats.length + 1)).toList,
                 messages := [], pinned := false })],
    active_chat := id,
    nextId := id + 1 }

/-- Exception raised by `del st.session_state.chats[chat_id]` on an absent
key.  (The pinned chat is skipped before any failable operation, so no
protected-chat error exists in the source.) -/
inductive DeleteError where
  | keyAbsent
  deriving DecidableEq

/-- The state effect of deleting one present chat id: remove it from the
dict; if it was active, re-select the first remaining non-pinned id, or
synthesize a fresh `"Chat #1"` when none remains.  The pinned chat is never
chosen as the fallback because the comprehension excludes `opps_id`. -/
def deleteChatCore (s : ChatState) (id : ChatId) : ChatState :=
  let chats' := s.chats.filter fun p => decide (p.1 ≠ id)
  if id = s.active_chat then
    match (chats'.map Prod.fst).filter (fun cid => decide (cid ≠ s.opps_chat_id)) with
    | cid :: _ => { s with chats := chats', active_chat := cid }
    | [] =>
      { s with
        chats := chats'
          ++ [(s.nextId, { name := "Chat #1".toList, messages := [], pinned := false })],
        active_chat := s.nextId,
        nextId := s.nextId + 1 }
  else { s with chats := chats' }

/-- The sidebar delete handler for one clicked id, with the exception
behaviour made explicit: the pinned opportunities chat is skipped by
`continue` (no error, no state change); a present id is removed with the
fallback re-selection; `del` on an absent key would raise `KeyError`. -/
def deleteChatE (s : ChatState) (id : ChatId) : Except DeleteError ChatState :=
  if id = s.opps_chat_id then .ok s
  else if id ∈ chatIds s then .ok (deleteChatCore s id)
  else .error .keyAbsent

/-- The delete handler as the UI can actually reach it (delete buttons exist
only for rendered, present rows, on which `deleteChatE` never errors). -/
def deleteChat (s : ChatState) (id : ChatId) : ChatState :=
  match deleteChatE s id with
  | .ok s2 => s2
  | .error _ => s

/-- The `Recommendations` button handler: drop the old pinned chat if
present, create a fresh pinned empty `"Recommendations"` chat, register it,
make it active, and set the `autorun` flag. -/
def resetOpportunitiesChat (s : ChatState) : ChatState :=
  let chats' := s.chats.filter fun p => decide (p.1 ≠ s.opps_chat_id)
  let nid := s.nextId
  { chats := chats'
      ++ [(nid, { name := "Recommendations".toList, messages := [], pinned := true })],
    active_chat := nid,
    opps_chat_id := nid,
    autorun := true,
    nextId := nid + 1 }

/-- The body shared by both `try/except` blocks around
`client.chat.completions.create`: on success, the reply content (`or ""`
turning a null content into the empty string) truncated to
`MAX_REPLY_CHARS`; on an exception `e`, the string `"Error: "` followed by
the exception text. -/
def gatewayReply (gw : Except Str (Option Str)) : Str :=
  match gw with
  | .ok content => _truncate (content.getD []) MAX_REPLY_CHARS
  | .error e => "Error: ".toList ++ e

/-- The chat-input handler (`if user_input:`): a falsy (empty) input does
nothing; otherwise the user turn is appended, the outgoing request is built
from the composed system prompt and the full history of the active chat, and
the gateway reply (or the caught error text) is appended as the assistant
turn.  Returns the outgoing request alongside the new state. -/
def chatInput (profs : List Str) (s : ChatState) (userInput : Str)
    (gw : Except Str (Option Str)) : List OutMessage × ChatState :=
  if userInput = [] then ([], s)
  else
    let chats1 := appendToChat s.chats s.active_chat
      { role := "user".toList, content := userInput, hidden := false }
    let history := ((findChat chats1 s.active_chat).map Chat.messages).getD []
    let req := _build_messages (_build_system_prompt profs) history
    (req,
      { s with
        chats := appendToChat chats1 s.active_chat
          { role := "assistant".toList, content := gatewayReply gw, hidden := false } })

/-- The auto-run block at the top of the main pane: guarded by the `autorun`
flag and the active chat being the pinned one.  It clears the flag first,
sends the composed system prompt plus one synthetic user turn carrying
`OPP_PROMPT`, and persists only the assistant reply. -/
def autorunStep (profs : List Str) (s : ChatState) (gw : Except Str (Option Str)) :
    List OutMessage × ChatState :=
  if s.autorun = true ∧ s.active_chat = s.opps_chat_id then
    let req := _build_messages (_build_system_prompt profs)
      [{ role := "user".toList, content := OPP_PROMPT, hidden := false }]
    (req,
      { s with
        autorun := false,
        chats := appendToChat s.chats s.active_chat
          { role := "assistant".toList, content := gatewayReply gw, hidden := false } })
  else ([], s)

/-- A user action on the chat registry: the `New Chat` button or a click on
one delete button. -/
inductive RegistryOp where
  | create
  | delete (id : ChatId)

/-- One registry action applied to the session state. -/
def registryStep (s : ChatState) : RegistryOp → ChatState
  | .create => createChat s
  | .delete id => deleteChat s id

/-- A whole interaction sequence starting from the initialised session. -/
def runOps (ops : List RegistryOp) : ChatState :=
  ops.foldl registryStep initState

/-- Registry well-formedness maintained by the handlers: non-empty dict,
unique keys all below the id counter, active and pinned ids present, and the
pinned marker carried exactly by the registered opportunities chat. -/
def RegistryInv (s : ChatState) : Prop :=
  s.chats ≠ [] ∧
  (chatIds s).Nodup ∧
  (∀ k ∈ chatIds s, k < s.nextId) ∧
  s.active_chat ∈ chatIds s ∧
  s.opps_chat_id ∈ chatIds s ∧
  ∀ p ∈ s.chats, (p.2.pinned = true ↔ p.1 = s.opps_chat_id)

theorem buildHistory_eq_filter_map (history : List Message) :
    buildHistory history
      = (history.filter fun m => decide (m.content ≠ [])).map
          fun m => ({ role := m.role, content := m.content } : OutMessage) := by
  induction history with
  | nil => rfl
  | cons m rest ih =>
    by_cases h : m.content = [] <;> simp [buildHistory, List.filter_cons, h, ih]

theorem buildHistory_hidden_irrelevant (b : Bool) (history : List Message) :
    buildHistory (history.map fun m => { m with hidden := b }) = buildHistory history := by
  induction history with
  | nil => rfl
  | cons m rest ih =>
    by_cases h : m.content = [] <;> simp [buildHistory, h, ih]

/-- C8: `_build_messages` prepends exactly one system message built from the
composed system prompt, keeps the chat messages in their original order while
dropping those with empty content, and the `hidden` flag has no effect on
inclusion. -/
theorem build_messages_spec (systemPrompt : Str) (history : List Message) (b : Bool) :
    _build_messages systemPrompt history
      = { role := "system".toList, content := systemPrompt }
        :: (history.filter fun m => decide (m.content ≠ [])).map
            (fun m => ({ role := m.role, content := m.content } : OutMessage)) ∧
    _build_messages systemPrompt (history.map fun m => { m with hidden := b })
      = _build_messages systemPrompt history := by
  constructor
  · unfold _build_messages
    rw [buildHistory_eq_filter_map]
  · unfold _build_messages
    rw [buildHistory_hidden_irrelevant]

/-- C9: both character budgets are hard cutoffs: `_truncate` output never
exceeds `maxChars`, is a prefix of the input (no ellipsis is added), and
inputs already within budget come back unchanged; the rendered profile block
never exceeds `MAX_PROFILE_CHARS`. -/
theorem char_budgets_hard_cutoff (t : Str) (maxChars : Nat) (profs : List Str) :
    (_truncate t maxChars).length ≤ maxChars ∧
    (_truncate t maxChars) <+: t ∧
    (t.length ≤ maxChars → _truncate t maxChars = t) ∧
    (renderProfileBlock profs).length ≤ MAX_PROFILE_CHARS := by
  refine ⟨?_, ?_, ?_, ?_⟩
  · unfold _truncate
    split
    · assumption
    · simp only [List.length_take]
      omega
  · unfold _truncate
    split
    · exact ⟨[], List.append_nil t⟩
    · exact ⟨t.drop maxChars, List.take_append_drop maxChars t⟩
  · intro h
    unfold _truncate
    rw [if_pos h]
  · unfold renderProfileBlock
    simp only [List.length_take]
    omega

/-- C9 witness: a concrete reply already within budget is returned
unchanged. -/
theorem char_budgets_hard_cutoff_witness :
    _truncate "ok".toList 4000 = "ok".toList :=
  (char_budgets_hard_cutoff "ok".toList 4000 []).2.2.1 (by decide)

/-- C2 counterexample: in the initialised session, deleting the pinned
opportunities chat does not fail at all — the handler silently yields the
unchanged state rather than a protected-chat error. -/
theorem deleteChat_pinned_silent_cex :
    deleteChatE initState initState.opps_chat_id = .ok initState := rfl

/-- C2 amended: a delete aimed at the pinned opportunities chat is silently
skipped: no error is raised, and the whole registry state (chat set, active
pointer, message logs) is returned unchanged. -/
theorem deleteChatE_pinned_ok (s : ChatState) :
    deleteChatE s s.opps_chat_id = .ok s := by
  unfold deleteChatE
  rw [if_pos rfl]

/-- C3: on the initial session (active `"Chat #1"`, pinned
`"Recommendations"`), deleting the active chat does not fall back to the
pinned chat even though it exists: the handler synthesizes a fresh
`"Chat #1"` under the next id and activates that instead. -/
theorem deleteChat_fallback_skips_pinned :
    (deleteChat initState 0).active_chat = 2 ∧
    (deleteChat initState 0).opps_chat_id = 1 ∧
    findChat (deleteChat initState 0).chats 2
      = some { name := "Chat #1".toList, messages := [], pinned := false } ∧
    findChat (deleteChat initState 0).chats 1
      = some { name := "Recommendations".toList, messages := [], pinned := true } := by
  decide

/-- C7 counterexample: on first addition the stored fragment is not the
null-stripped extracted text itself — the source wraps it in a fixed header
line and a trailing newline before storing. -/
theorem first_add_stores_wrapped_cex :
    (processFile id { client_profiles := [], client_profile_hashes := [] } [1]
        (.ok "abc".toList)).2.client_profiles ≠ ["abc".toList] := by
  decide

/-- C7 amended: the content hash is computed over the raw bytes, and after a
successful first addition a second call with identical bytes is a duplicate
no-op leaving the store unchanged; on first addition the stored fragment is
the extracted text, whitespace-trimmed and null-stripped, wrapped in the
fixed header and a trailing newline. -/
theorem addDocumentText_idempotent (hash : Bytes → Bytes) (s : ProfileState)
    (b : Bytes) (raw : Str)
    (hfresh : hash b ∉ s.client_profile_hashes) (hne : pyStrip raw ≠ []) :
    (processFile hash s b (.ok raw)).1 = .added ∧
    (processFile hash s b (.ok raw)).2.client_profiles
      = s.client_profiles ++ [wrapFragment (stripNulls (pyStrip raw))] ∧
    (processFile hash s b (.ok raw)).2.client_profile_hashes
      = s.client_profile_hashes ++ [hash b] ∧
    ∀ ext2, processFile hash (processFile hash s b (.ok raw)).2 b ext2
      = (.duplicate, (processFile hash s b (.ok raw)).2) := by
  have hstep : processFile hash s b (.ok raw)
      = (.added,
          { client_profiles := s.client_profiles ++ [wrapFragment (stripNulls (pyStrip raw))],
            client_profile_hashes := s.client_profile_hashes ++ [hash b] }) := by
    simp [processFile, hfresh, hne]
  refine ⟨by rw [hstep], by rw [hstep], by rw [hstep], ?_⟩
  intro ext2
  rw [hstep]
  simp [processFile]

/-- C7 witness: with a concrete store, bytes and extraction result, the
second identical upload is reported as a duplicate and changes nothing. -/
theorem addDocumentText_idempotent_witness :
    processFile id
        (processFile id { client_profiles := [], client_profile_hashes := [] } [1]
          (.ok "abc".toList)).2 [1] (.ok "abc".toList)
      = (.duplicate,
          (processFile id { client_profiles := [], client_profile_hashes := [] } [1]
            (.ok "abc".toList)).2) :=
  (addDocumentText_idempotent id { client_profiles := [], client_profile_hashes := [] }
    [1] "abc".toList (by decide) (by decide)).2.2.2 (.ok "abc".toList)

theorem processFile_error_state (hash : Bytes → Bytes) (s : ProfileState)
    (b : Bytes) (e : Str) : (processFile hash s b (.error e)).2 = s := by
  simp only [processFile]
  split
  · rfl
  · rfl

/-- C10: a failed extraction, or an extraction whose text is empty after
stripping, leaves the profile store untouched — in particular the content
hash is not recorded, so the same bytes are processed again (not skipped as
a duplicate) on a later upload — and an error file in the middle of a batch
does not affect the processing of the remaining files. -/
theorem failed_upload_leaves_store (hash : Bytes → Bytes) (s : ProfileState)
    (b : Bytes) (e : Str) (t : Str) (pre post : List (Bytes × Except Str Str))
    (hfresh : hash b ∉ s.client_profile_hashes) (hne : pyStrip t ≠ []) :
    processFile hash s b (.error e) = (.failed, s) ∧
    (∀ raw, pyStrip raw = [] → processFile hash s b (.ok raw) = (.emptyText, s)) ∧
    (processFile hash (processFile hash s b (.error e)).2 b (.ok t)).1 = .added ∧
    processFiles hash s (pre ++ (b, .error e) :: post)
      = processFiles hash s (pre ++ post) := by
  refine ⟨?_, ?_, ?_, ?_⟩
  · simp [processFile, hfresh]
  · intro raw hraw
    simp [processFile, hfresh, hraw]
  · rw [processFile_error_state]
    simp [processFile, hfresh, hne]
  · unfold processFiles
    simp only [List.foldl_append, List.foldl_cons]
    rw [processFile_error_state]

/-- C10 witness: after a concrete failed extraction, re-uploading the same
bytes with a successful extraction stores the fragment. -/
theorem failed_upload_leaves_store_witness :
    (processFile id
        (processFile id { client_profiles := [], client_profile_hashes := [] } [1]
          (.error "x".toList)).2 [1] (.ok "abc".toList)).1 = .added :=
  (failed_upload_leaves_store id { client_profiles := [], client_profile_hashes := [] }
    [1] "x".toList "abc".toList [] [] (by decide) (by decide)).2.2.1

theorem findChat_appendToChat (chats : List (ChatId × Chat)) (id : ChatId)
    (m : Message) (c : Chat) (hc : findChat chats id = some c) :
    findChat (appendToChat chats id m) id
      = some { c with messages := c.messages ++ [m] } := by
  induction chats with
  | nil => simp [findChat] at hc
  | cons p rest ih =>
    by_cases h : p.1 = id
    · simp only [findChat, if_pos h] at hc
      injection hc with hc2
      subst hc2
      simp [appendToChat, findChat, h]
    · simp only [findChat, if_neg h] at hc
      simpa [appendToChat, findChat, h] using ih hc

theorem chatInput_state (profs : List Str) (s : ChatState) (t : Str)
    (gw : Except Str (Option Str)) (c : Chat)
    (hc : findChat s.chats s.active_chat = some c) (ht : t ≠ []) :
    findChat (chatInput profs s t gw).2.chats s.active_chat
      = some { c with messages := c.messages
          ++ [{ role := "user".toList, content := t, hidden := false },
              { role := "assistant".toList, content := gatewayReply gw, hidden := false }] } := by
  have h1 := findChat_appendToChat s.chats s.active_chat
    { role := "user".toList, content := t, hidden := false } c hc
  have h2 := findChat_appendToChat _ s.active_chat
    { role := "assistant".toList, content := gatewayReply gw, hidden := false } _ h1
  unfold chatInput
  rw [if_neg ht]
  show findChat
      (appendToChat (appendToChat s.chats s.active_chat _) s.active_chat _)
      s.active_chat = _
  rw [h2]
  simp

/-- C4 counterexample: a whitespace-only input `"   "` is truthy to the
handler, so far from failing with an empty-input error it is appended
verbatim as a user turn (followed by the gateway reply) — the message count
changes. -/
theorem whitespace_input_appended_cex :
    findChat (chatInput [] initState "   ".toList (.error "x".toList)).2.chats 0
      = some { name := "Chat #1".toList,
               messages := [{ role := "user".toList, content := "   ".toList, hidden := false },
                            { role := "assistant".toList, content := "Error: x".toList, hidden := false }],
               pinned := false } := by
  decide

/-- C4 amended: an empty input is silently ignored (no message appended, no
error raised); any non-empty input — including whitespace-only text, which
is truthy and is not trimmed — is appended verbatim as a user message,
followed by the gateway reply as the assistant message. -/
theorem chatInput_empty_skipped_nonempty_appended (profs : List Str) (s : ChatState)
    (t : Str) (gw : Except Str (Option Str)) (c : Chat)
    (hc : findChat s.chats s.active_chat = some c) :
    (t = [] → chatInput profs s t gw = ([], s)) ∧
    (t ≠ [] → findChat (chatInput profs s t gw).2.chats s.active_chat
        = some { c with messages := c.messages
            ++ [{ role := "user".toList, content := t, hidden := false },
                { role := "assistant".toList, content := gatewayReply gw, hidden := false }] }) := by
  constructor
  · intro h
    unfold chatInput
    rw [if_pos h]
  · intro ht
    exact chatInput_state profs s t gw c hc ht

/-- C4 witness: a concrete non-empty input appended to the initial chat. -/
theorem chatInput_empty_skipped_nonempty_appended_witness :
    findChat (chatInput [] initState "hi".toList (.ok none)).2.chats 0
      = some { name := "Chat #1".toList,
               messages := [{ role := "user".toList, content := "hi".toList, hidden := false },
                            { role := "assistant".toList, content := [], hidden := false }],
               pinned := false } :=
  (chatInput_empty_skipped_nonempty_appended [] initState "hi".toList (.ok none)
    { name := "Chat #1".toList, messages := [], pinned := false } rfl).2 (by decide)

/-- C6: a gateway failure is converted into a synthetic assistant message
whose content is the human-readable text `"Error: "` followed by the
exception text; the handler returns normally, and the chat grows by exactly
two messages — the user turn plus the error-as-reply turn. -/
theorem gateway_error_degrades_gracefully (profs : List Str) (s : ChatState)
    (t e : Str) (c : Chat)
    (hc : findChat s.chats s.active_chat = some c) (ht : t ≠ []) :
    findChat (chatInput profs s t (.error e)).2.chats s.active_chat
      = some { c with messages := c.messages
          ++ [{ role := "user".toList, content := t, hidden := false },
              { role := "assistant".toList, content := "Error: ".toList ++ e, hidden := false }] } ∧
    ((findChat (chatInput profs s t (.error e)).2.chats s.active_chat).map
        (fun ch => ch.messages.length)).getD 0 = c.messages.length + 2 ∧
    "Error: ".toList <+: gatewayReply (.error e) := by
  have h := chatInput_state profs s t (.error e) c hc ht
  refine ⟨h, ?_, ⟨e, rfl⟩⟩
  rw [h]
  simp

/-- C6 witness: a concrete gateway failure on the initial chat. -/
theorem gateway_error_degrades_gracefully_witness :
    ((findChat (chatInput [] initState "hello".toList (.error "boom".toList)).2.chats 0).map
        (fun ch => ch.messages.length)).getD 0 = 2 :=
  (gateway_error_degrades_gracefully [] initState "hello".toList "boom".toList
    { name := "Chat #1".toList, messages := [], pinned := false } rfl (by decide)).2.1

theorem OPP_PROMPT_ne_nil : OPP_PROMPT ≠ [] := by decide

theorem findChat_append_of_keys_ne (l1 l2 : List (ChatId × Chat)) (id : ChatId)
    (h : ∀ p ∈ l1, p.1 ≠ id) : findChat (l1 ++ l2) id = findChat l2 id := by
  induction l1 with
  | nil => rfl
  | cons p rest ih =>
    simp only [List.cons_append, findChat, if_neg (h p (List.mem_cons_self p rest))]
    exact ih fun q hq => h q (List.mem_cons_of_mem p hq)

theorem appendToChat_of_keys_ne (l : List (ChatId × Chat)) (id : ChatId) (m : Message)
    (h : ∀ p ∈ l, p.1 ≠ id) : appendToChat l id m = l := by
  induction l with
  | nil => rfl
  | cons p rest ih =>
    have hh := ih fun q hq => h q (List.mem_cons_of_mem p hq)
    simp only [appendToChat, List.map_cons] at hh ⊢
    rw [if_neg (h p (List.mem_cons_self p rest)), hh]

theorem appendToChat_append (l1 l2 : List (ChatId × Chat)) (id : ChatId) (m : Message) :
    appendToChat (l1 ++ l2) id m = appendToChat l1 id m ++ appendToChat l2 id m := by
  simp [appendToChat]

/-- C5: the auto-run transition is one-shot.  `resetOpportunitiesChat` sets
the pending flag and activates the fresh pinned chat; the first render with
that chat active sends the composed system prompt plus one synthetic user
turn carrying `OPP_PROMPT`, clears the flag whatever the gateway outcome,
and persists only the assistant reply — the synthetic user turn never
appears in the log; a second render is a no-op. -/
theorem autorun_one_shot (profs : List Str) (s : ChatState)
    (gw gw2 : Except Str (Option Str))
    (hbound : ∀ k ∈ chatIds s, k < s.nextId) :
    (resetOpportunitiesChat s).autorun = true ∧
    (resetOpportunitiesChat s).active_chat = (resetOpportunitiesChat s).opps_chat_id ∧
    (autorunStep profs (resetOpportunitiesChat s) gw).1
      = [{ role := "system".toList, content := _build_system_prompt profs },
         { role := "user".toList, content := OPP_PROMPT }] ∧
    (autorunStep profs (resetOpportunitiesChat s) gw).2.autorun = false ∧
    findChat (autorunStep profs (resetOpportunitiesChat s) gw).2.chats
        (resetOpportunitiesChat s).opps_chat_id
      = some { name := "Recommendations".toList,
               messages := [{ role := "assistant".toList, content := gatewayReply gw,
                              hidden := false }],
               pinned := true } ∧
    autorunStep profs (autorunStep profs (resetOpportunitiesChat s) gw).2 gw2
      = ([], (autorunStep profs (resetOpportunitiesChat s) gw).2) := by
  have hchats' : ∀ p ∈ s.chats.filter (fun p => decide (p.1 ≠ s.opps_chat_id)),
      p.1 ≠ s.nextId := by
    intro p hp
    have hmem : p.1 ∈ chatIds s :=
      List.mem_map_of_mem Prod.fst (List.mem_of_mem_filter hp)
    exact Nat.ne_of_lt (hbound _ hmem)
  have hstep : autorunStep profs (resetOpportunitiesChat s) gw
      = ([{ role := "system".toList, content := _build_system_prompt profs },
          { role := "user".toList, content := OPP_PROMPT }],
         { chats := s.chats.filter (fun p => decide (p.1 ≠ s.opps_chat_id))
             ++ [(s.nextId, { name := "Recommendations".toList,
                              messages := [{ role := "assistant".toList,
                                             content := gatewayReply gw, hidden := false }],
                              pinned := true })],
           active_chat := s.nextId, opps_chat_id := s.nextId,
           autorun := false, nextId := s.nextId + 1 }) := by
    unfold autorunStep
    dsimp only [resetOpportunitiesChat]
    rw [if_pos ⟨rfl, rfl⟩]
    rw [appendToChat_append, appendToChat_of_keys_ne _ _ _ hchats']
    unfold _build_messages buildHistory
    rw [if_neg OPP_PROMPT_ne_nil]
    simp [appendToChat, buildHistory]
  have hopps : (resetOpportunitiesChat s).opps_chat_id = s.nextId := rfl
  refine ⟨rfl, rfl, ?_, ?_, ?_, ?_⟩
  · rw [hstep]
  · rw [hstep]
  · rw [hstep, hopps]
    rw [findChat_append_of_keys_ne _ _ _ hchats']
    simp [findChat]
  · rw [hstep]
    simp [autorunStep]

/-- C5 witness: the auto-run flag is cleared by the first render at the
concrete initial session, even when the gateway call fails. -/
theorem autorun_one_shot_witness :
    (autorunStep [] (resetOpportunitiesChat initState) (.error "x".toList)).2.autorun
      = false :=
  (autorun_one_shot [] initState (.error "x".toList) (.ok none) (by decide)).2.2.2.1

theorem map_fst_filter_key (a : ChatId) (l : List (ChatId × Chat)) :
    (l.filter fun p => decide (p.1 = a)).map Prod.fst
      = (l.map Prod.fst).filter fun k => decide (k = a) := by
  induction l with
  | nil => rfl
  | cons p rest ih =>
    by_cases hq : p.1 = a <;> simp [List.filter_cons, hq, ih]

theorem map_fst_filter_ne (a : ChatId) (l : List (ChatId × Chat)) :
    (l.filter fun p => decide (p.1 ≠ a)).map Prod.fst
      = (l.map Prod.fst).filter fun k => decide (k ≠ a) := by
  induction l with
  | nil => rfl
  | cons p rest ih =>
    simp only [decide_not] at ih ⊢
    by_cases hq : p.1 = a <;> simp [List.filter_cons, hq, ih]

theorem filter_key_singleton (l : List ChatId) (a : ChatId)
    (hn : l.Nodup) (ha : a ∈ l) :
    l.filter (fun k => decide (k = a)) = [a] := by
  induction l with
  | nil => cases ha
  | cons b rest ih =>
    rcases List.nodup_cons.mp hn with ⟨hb, hrest⟩
    rcases List.mem_cons.mp ha with h | h
    · have hanotin : a ∉ rest := by
        rw [h]
        exact hb
      have hnil : rest.filter (fun k => decide (k = a)) = [] := by
        rw [List.filter_eq_nil_iff]
        intro k hk
        simp only [decide_eq_true_eq]
        exact fun hkb => hanotin (hkb ▸ hk)
      simp [List.filter_cons, h.symm, hnil]
    · have hba : b ≠ a := fun hh => hb (hh ▸ h)
      simp [List.filter_cons, hba, ih hrest h]

theorem pinned_map_fst_eq (s : ChatState) (h : RegistryInv s) :
    (s.chats.filter fun p => p.2.pinned).map Prod.fst = [s.opps_chat_id] := by
  obtain ⟨h1, h2, h3, h4, h5, h6⟩ := h
  have hcongr : s.chats.filter (fun p => p.2.pinned)
      = s.chats.filter (fun p => decide (p.1 = s.opps_chat_id)) := by
    apply List.filter_congr
    intro p hp
    rcases h6 p hp with ⟨hf, hb⟩
    by_cases hpp : p.1 = s.opps_chat_id
    · simp [hpp, hb hpp]
    · cases hcase : p.2.pinned
      · simp [hpp]
      · exact absurd (hf hcase) hpp
  calc (s.chats.filter fun p => p.2.pinned).map Prod.fst
      = (s.chats.filter fun p => decide (p.1 = s.opps_chat_id)).map Prod.fst := by
        rw [hcongr]
    _ = (s.chats.map Prod.fst).filter (fun k => decide (k = s.opps_chat_id)) :=
        map_fst_filter_key _ _
    _ = [s.opps_chat_id] := filter_key_singleton _ _ h2 h5

theorem registryInv_init : RegistryInv initState := by
  unfold RegistryInv chatIds initState
  decide

theorem registryInv_createChat (s : ChatState) (h : RegistryInv s) :
    RegistryInv (createChat s) := by
  obtain ⟨h1, h2, h3, h4, h5, h6⟩ := h
  have hfresh : s.nextId ∉ chatIds s := fun hm => lt_irrefl _ (h3 _ hm)
  have hkeys : chatIds (createChat s) = chatIds s ++ [s.nextId] := by
    simp [createChat, chatIds]
  refine ⟨?_, ?_, ?_, ?_, ?_, ?_⟩
  · simp [createChat]
  · rw [hkeys]
    refine List.nodup_append.mpr ⟨h2, List.nodup_singleton _, ?_⟩
    intro a ha hb
    rw [List.mem_singleton] at hb
    exact hfresh (hb ▸ ha)
  · rw [hkeys]
    intro k hk
    rcases List.mem_append.mp hk with hk | hk
    · exact Nat.lt_succ_of_lt (h3 _ hk)
    · rw [List.mem_singleton] at hk
      subst hk
      exact Nat.lt_succ_self _
  · rw [hkeys]
    exact List.mem_append_right _ (List.mem_singleton_self _)
  · rw [hkeys]
    exact List.mem_append_left _ h5
  · intro p hp
    have hp' : p ∈ s.chats
        ++ [(s.nextId, { name := "Chat #".toList ++ (Nat.repr (s.chats.length + 1)).toList,
                         messages := [], pinned := false })] := hp
    rcases List.mem_append.mp hp' with hp2 | hp2
    · exact h6 p hp2
    · rw [List.mem_singleton] at hp2
      subst hp2
      constructor
      · intro hh
        have hh' : false = true := hh
        exact absurd hh' (by decide)
      · intro heq
        have heq' : s.nextId = s.opps_chat_id := heq
        have hlt := h3 _ h5
        exact absurd heq' (Nat.ne_of_gt hlt)

theorem registryInv_deleteChatCore (s : ChatState) (id : ChatId)
    (h : RegistryInv s) (hid : id ≠ s.opps_chat_id) :
    RegistryInv (deleteChatCore s id) := by
  obtain ⟨h1, h2, h3, h4, h5, h6⟩ := h
  have hkeys' : (s.chats.filter fun p => decide (p.1 ≠ id)).map Prod.fst
      = (chatIds s).filter fun k => decide (k ≠ id) := map_fst_filter_ne id s.chats
  have hops' : s.opps_chat_id ∈ (s.chats.filter fun p => decide (p.1 ≠ id)).map Prod.fst := by
    rw [hkeys']
    exact List.mem_filter.mpr ⟨h5, decide_eq_true fun hh => hid hh.symm⟩
  have hsub : ∀ k ∈ (s.chats.filter fun p => decide (p.1 ≠ id)).map Prod.fst,
      k ∈ chatIds s := by
    intro k hk
    rw [hkeys'] at hk
    exact List.mem_of_mem_filter hk
  have hnodup' : ((s.chats.filter fun p => decide (p.1 ≠ id)).map Prod.fst).Nodup := by
    rw [hkeys']
    exact h2.filter _
  have hne' : s.chats.filter (fun p => decide (p.1 ≠ id)) ≠ [] := by
    intro hnil
    rw [hnil] at hops'
    cases hops'
  have hmem' : ∀ p ∈ s.chats.filter (fun p => decide (p.1 ≠ id)), p ∈ s.chats :=
    fun p hp => List.mem_of_mem_filter hp
  simp only [deleteChatCore]
  by_cases hact : id = s.active_chat
  · rw [if_pos hact]
    cases hnext : ((s.chats.filter fun p => decide (p.1 ≠ id)).map Prod.fst).filter
        (fun cid => decide (cid ≠ s.opps_chat_id)) with
    | cons cid rest =>
      refine ⟨hne', hnodup', ?_, ?_, hops', ?_⟩
      · intro k hk
        exact h3 _ (hsub _ hk)
      · have hcid : cid ∈ ((s.chats.filter fun p => decide (p.1 ≠ id)).map Prod.fst).filter
            (fun cid => decide (cid ≠ s.opps_chat_id)) := by
          rw [hnext]
          exact List.mem_cons_self _ _
        exact List.mem_of_mem_filter hcid
      · intro p hp
        exact h6 p (hmem' p hp)
    | nil =>
      have hfresh : s.nextId ∉ (s.chats.filter fun p => decide (p.1 ≠ id)).map Prod.fst :=
        fun hm => lt_irrefl _ (h3 _ (hsub _ hm))
      refine ⟨?_, ?_, ?_, ?_, ?_, ?_⟩
      · intro hnil
        simp at hnil
      · simp only [chatIds, List.map_append, List.map_cons, List.map_nil]
        refine List.nodup_append.mpr ⟨hnodup', List.nodup_singleton _, ?_⟩
        intro a ha hb
        rw [List.mem_singleton] at hb
        exact hfresh (hb ▸ ha)
      · simp only [chatIds, List.map_append, List.map_cons, List.map_nil]
        intro k hk
        rcases List.mem_append.mp hk with hk | hk
        · exact Nat.lt_succ_of_lt (h3 _ (hsub _ hk))
        · rw [List.mem_singleton] at hk
          subst hk
          exact Nat.lt_succ_self _
      · simp only [chatIds, List.map_append, List.map_cons, List.map_nil]
        exact List.mem_append_right _ (List.mem_singleton_self _)
      · simp only [chatIds, List.map_append, List.map_cons, List.map_nil]
        exact List.mem_append_left _ hops'
      · intro p hp
        have hp' : p ∈ s.chats.filter (fun p => decide (p.1 ≠ id))
            ++ [(s.nextId, { name := "Chat #1".toList, messages := [], pinned := false })] := hp
        rcases List.mem_append.mp hp' with hp2 | hp2
        · exact h6 p (hmem' p hp2)
        · rw [List.mem_singleton] at hp2
          subst hp2
          constructor
          · intro hh
            have hh' : false = true := hh
            exact absurd hh' (by decide)
          · intro heq
            have heq' : s.nextId = s.opps_chat_id := heq
            have hlt := h3 _ h5
            exact absurd heq' (Nat.ne_of_gt hlt)
  · rw [if_neg hact]
    refine ⟨hne', hnodup', ?_, ?_, hops', ?_⟩
    · intro k hk
      exact h3 _ (hsub _ hk)
    · show s.active_chat ∈ (s.chats.filter fun p => decide (p.1 ≠ id)).map Prod.fst
      rw [hkeys']
      exact List.mem_filter.mpr ⟨h4, decide_eq_true fun hh => hact hh.symm⟩
    · intro p hp
      exact h6 p (hmem' p hp)

theorem registryInv_deleteChat (s : ChatState) (id : ChatId) (h : RegistryInv s) :
    RegistryInv (deleteChat s id) := by
  unfold deleteChat deleteChatE
  by_cases hid : id = s.opps_chat_id
  · rw [if_pos hid]
    exact h
  · rw [if_neg hid]
    by_cases hmem : id ∈ chatIds s
    · rw [if_pos hmem]
      exact registryInv_deleteChatCore s id h hid
    · rw [if_neg hmem]
      exact h

theorem registryInv_runOps (ops : List RegistryOp) : RegistryInv (runOps ops) := by
  have main : ∀ (l : List RegistryOp) (s : ChatState), RegistryInv s →
      RegistryInv (l.foldl registryStep s) := by
    intro l
    induction l with
    | nil =>
      intro s hs
      exact hs
    | cons op rest ih =>
      intro s hs
      rw [List.foldl_cons]
      apply ih
      cases op with
      | create => exact registryInv_createChat s hs
      | delete id => exact registryInv_deleteChat s id hs
  exact main ops initState registryInv_init

/-- C1: for every sequence of chat-creation and chat-deletion operations
starting from the initialised session, the chats dict is never empty, the
active-chat id always refers to a present chat, and exactly one pinned chat
exists — the registered `Recommendations` opportunities chat. -/
theorem registry_ops_invariants (ops : List RegistryOp) :
    (runOps ops).chats ≠ [] ∧
    (runOps ops).active_chat ∈ chatIds (runOps ops) ∧
    ((runOps ops).chats.filter fun p => p.2.pinned).map Prod.fst
      = [(runOps ops).opps_chat_id] := by
  obtain ⟨h1, h2, h3, h4, h5, h6⟩ := registryInv_runOps ops
  exact ⟨h1, h4, pinned_map_fst_eq _ ⟨h1, h2, h3, h4, h5, h6⟩⟩

end WM
